import Mathlib

/-!
Verification of the include-engine frame-oriented GPU resource and
draw-submission core (`src/include-engine/renderer.cpp`) against its
natural-language specification.  The C++ code is shallowly embedded:
pure state manipulation becomes Lean functions over explicit state
records, Vulkan handles become `Nat` identifiers, `VkResult` becomes
`Int` (0 = `VK_SUCCESS`), and C++ exceptions / `fail_fast` become
`Except` results.
-/

namespace IncludeEngine

/-! ## Linear buffer allocator (`dynamic_buffer`, renderer.cpp lines 597-624)

State of a `dynamic_buffer` is the pair `(offset, range)`; the mapped
memory contents are irrelevant to the allocation discipline and are not
modelled.  `mem_reqs.alignment` is passed explicitly as `a`. -/

structure dynamic_buffer where
  offset : Nat
  range : Nat
deriving DecidableEq, Repr

/-- The rounding expression `(range + alignment - 1) / alignment * alignment`, the rounding
expression from `dynamic_buffer::begin` (renderer.cpp line 604). -/
def roundUpTo (a r : Nat) : Nat := (r + a - 1) / a * a

/-- Source `dynamic_buffer::reset` (line 597): `offset = range = 0`. -/
def dynamic_buffer.reset (_ : dynamic_buffer) : dynamic_buffer := ⟨0, 0⟩

/-- Source `dynamic_buffer::begin` (line 602): advance `offset` past the previous
write region rounded up to the alignment, zero `range`. -/
def dynamic_buffer.begin (a : Nat) (s : dynamic_buffer) : dynamic_buffer :=
  ⟨s.offset + roundUpTo a s.range, 0⟩

/-- Source `dynamic_buffer::write` (line 608): copies `size` bytes at
`offset + range` and grows `range`; only the size matters here. -/
def dynamic_buffer.write (size : Nat) (s : dynamic_buffer) : dynamic_buffer :=
  ⟨s.offset, s.range + size⟩

/-- Source `dynamic_buffer::end` (line 614): returns `(offset, range)` (the
buffer handle component carries no allocation information). -/
def dynamic_buffer.endRegion (s : dynamic_buffer) : Nat × Nat :=
  (s.offset, s.range)

/-- One operation of the `reset/begin/write/end` protocol. -/
inductive BufOp where
  | reset
  | begin
  | write (size : Nat)
  | endOp
deriving DecidableEq, Repr

/-- Apply one operation to an allocator state (alignment `a`). -/
def stepOp (a : Nat) (s : dynamic_buffer) : BufOp → dynamic_buffer
  | .reset => s.reset
  | .begin => s.begin a
  | .write n => s.write n
  | .endOp => s

/-- Run a sequence of operations from an arbitrary state. -/
def runFrom (a : Nat) (s : dynamic_buffer) (ops : List BufOp) : dynamic_buffer :=
  ops.foldl (stepOp a) s

/-- Run a sequence of operations from the freshly constructed state
`(0, 0)` (both fields are zero-initialised in the C++ class). -/
def run (a : Nat) (ops : List BufOp) : dynamic_buffer :=
  runFrom a ⟨0, 0⟩ ops

/-- Upper bound on the bytes an operation can consume: a `write`
consumes its size, a `begin` can add up to `a - 1` bytes of alignment
padding, `reset` and `end` consume nothing. -/
def opDemand (a : Nat) : BufOp → Nat
  | .begin => a - 1
  | .write n => n
  | _ => 0

/-- Total of written sizes plus worst-case alignment padding. -/
def totalDemand (a : Nat) (ops : List BufOp) : Nat :=
  (ops.map (opDemand a)).sum

/-! ### Transient resource pool (renderer.cpp lines 630-706)

Only the state relevant to the claims is modelled: the three linear
allocators and the lists of outstanding command buffers and descriptor
sets.  The fence wait, pool resets and bulk frees in
`transient_resource_pool::reset` (lines 661-680) affect no modelled
state other than clearing the two lists and rewinding the three
allocators. -/

structure transient_resource_pool where
  uniform_buffer : dynamic_buffer
  vertex_buffer : dynamic_buffer
  index_buffer : dynamic_buffer
  command_buffers : List Nat
  descriptor_sets : List Nat
deriving DecidableEq, Repr

/-- Source `transient_resource_pool::reset` (lines 661-680): frees and clears
all outstanding command buffers and descriptor sets, then calls
`reset()` on each of the three allocators. -/
def transient_resource_pool.reset (p : transient_resource_pool) : transient_resource_pool :=
  { uniform_buffer := p.uniform_buffer.reset
    vertex_buffer := p.vertex_buffer.reset
    index_buffer := p.index_buffer.reset
    command_buffers := []
    descriptor_sets := [] }

/-! ## Scene contract, material, descriptor set, draw list
(renderer.cpp lines 1000-1180)

Vulkan handles (`VkBuffer`, `VkDescriptorSetLayout`, `VkDescriptorSet`,
`VkPipeline`, `VkPipelineLayout`, `VkRenderPass`) are modelled as `Nat`
identifiers.  C++ object identity (`&a != &b` pointer comparisons) is
modelled by a `Nat` identity field standing for the object's address. -/

structure scene_contract where
  id : Nat
  shared_layouts : List Nat
  render_passes : List Nat
  example_layout : Nat
deriving DecidableEq, Repr

structure scene_material where
  contract : Nat
  per_object_layout : Nat
  pipeline_layout : Nat
  pipelines : List Nat
deriving DecidableEq, Repr

instance : Inhabited scene_material := ⟨⟨0, 0, 0, []⟩⟩

structure scene_descriptor_set where
  material : Option scene_material
  layout : Nat
  set : Nat
deriving DecidableEq, Repr

/-- Source `scene_descriptor_set::get_material` dereferences the stored
material pointer; dereferencing null is undefined behaviour in the
source and is modelled by the default material. -/
def scene_descriptor_set.get_material (d : scene_descriptor_set) : scene_material :=
  d.material.getD default

structure VkDescriptorBufferInfo where
  buffer : Nat
  offset : Nat
  range : Nat
deriving DecidableEq, Repr

instance : Inhabited VkDescriptorBufferInfo := ⟨⟨0, 0, 0⟩⟩

/-- The four-element C arrays `VkBuffer vertex_buffers[4]` and
`VkDeviceSize vertex_buffer_offsets[4]` of `draw_item`; slots not
written by the copy loop keep their zero initialisation
(`VK_NULL_HANDLE` / 0). -/
structure Slots4 where
  s0 : Nat
  s1 : Nat
  s2 : Nat
  s3 : Nat
deriving DecidableEq, Repr

def Slots4.get (s : Slots4) : Nat → Nat
  | 0 => s.s0
  | 1 => s.s1
  | 2 => s.s2
  | 3 => s.s3
  | _ => 0

/-- Result of the `for(size_t i=0; i<vertex_buffers.size() && i<4; ++i)`
copy loop (renderer.cpp lines 1103-1107) starting from zero-initialised
slots: slot `i` holds element `i` when `i < length`, else 0. -/
def storeSlots (xs : List Nat) : Slots4 :=
  ⟨xs.getD 0 0, xs.getD 1 0, xs.getD 2 0, xs.getD 3 0⟩

structure draw_item where
  material : scene_material
  set : Nat
  vertex_buffer_count : Nat
  vertex_buffers : Slots4
  vertex_buffer_offsets : Slots4
  index_buffer : Nat
  index_buffer_offset : Nat
  first_index : Nat
  index_count : Nat
  instance_count : Nat
deriving DecidableEq, Repr

instance : Inhabited draw_item := ⟨⟨default, 0, 0, ⟨0, 0, 0, 0⟩, ⟨0, 0, 0, 0⟩, 0, 0, 0, 0, 0⟩⟩

structure draw_list where
  contract : scene_contract
  items : List draw_item
deriving DecidableEq, Repr

/-- Source `mesh::material` (data-types.h lines 122-126): a contiguous
triangle range. -/
structure mesh_material where
  first_triangle : Nat
  num_triangles : Nat
deriving DecidableEq, Repr

instance : Inhabited mesh_material := ⟨⟨0, 0⟩⟩

/-- Type `gfx_mesh` as used by renderer.cpp: a single shared vertex buffer,
a single index buffer, and the per-material triangle ranges of the
loaded mesh (`mesh.m.materials`). -/
structure gfx_mesh where
  vertex_buffer : Nat
  index_buffer : Nat
  materials : List mesh_material
deriving DecidableEq, Repr

/-- Buffer-level `draw_list::draw` overload (renderer.cpp lines
1097-1114).  The `fail_fast()` on a foreign contract is modelled as
`Except.error`; on success the new `draw_item` is appended verbatim. -/
def draw_list.draw (dl : draw_list) (descriptors : scene_descriptor_set)
    (vertex_buffers : List VkDescriptorBufferInfo)
    (index_buffer : VkDescriptorBufferInfo)
    (index_count instance_count : Nat) : Except Unit draw_list :=
  if descriptors.get_material.contract ≠ dl.contract.id then .error () else
  let item : draw_item :=
    { material := descriptors.get_material
      set := descriptors.set
      vertex_buffer_count := vertex_buffers.length
      vertex_buffers := storeSlots (vertex_buffers.map (fun v => v.buffer))
      vertex_buffer_offsets := storeSlots (vertex_buffers.map (fun v => v.offset))
      index_buffer := index_buffer.buffer
      index_buffer_offset := index_buffer.offset
      first_index := 0
      index_count := index_count
      instance_count := instance_count }
  .ok { dl with items := dl.items ++ [item] }

/-- The `draw_item` produced for one material index `mtl` by the
mesh-level `draw_list::draw` (renderer.cpp lines 1120-1132).  Indexing
`materials[mtl]` out of bounds is undefined behaviour in the source and
is modelled by `List.getD` with a default. -/
def mesh_draw_item (m : scene_material) (set : Nat) (mesh : gfx_mesh)
    (instances : VkDescriptorBufferInfo) (instance_stride : Nat)
    (mtl : Nat) : draw_item :=
  { material := m
    set := set
    vertex_buffer_count := if instance_stride ≠ 0 then 2 else 1
    vertex_buffers := ⟨mesh.vertex_buffer, instances.buffer, 0, 0⟩
    vertex_buffer_offsets := ⟨0, instances.offset, 0, 0⟩
    index_buffer := mesh.index_buffer
    index_buffer_offset := 0
    first_index := (mesh.materials.getD mtl default).first_triangle * 3
    index_count := (mesh.materials.getD mtl default).num_triangles * 3
    instance_count := if instance_stride ≠ 0 then instances.range / instance_stride else 1 }

/-- Mesh-level `draw_list::draw` overload with an explicit material
subset and instance buffer (renderer.cpp lines 1116-1135): one item per
listed material index, appended in subset order. -/
def draw_list.drawMesh (dl : draw_list) (descriptors : scene_descriptor_set)
    (mesh : gfx_mesh) (mtls : List Nat) (instances : VkDescriptorBufferInfo)
    (instance_stride : Nat) : Except Unit draw_list :=
  if descriptors.get_material.contract ≠ dl.contract.id then .error () else
  let newItems := mtls.map (mesh_draw_item descriptors.get_material descriptors.set
    mesh instances instance_stride)
  .ok { dl with items := dl.items ++ newItems }

/-- Overload `draw(descriptors, mesh, instances, instance_stride)` (lines
1137-1142): draws all of the mesh's materials. -/
def draw_list.drawMeshAll (dl : draw_list) (descriptors : scene_descriptor_set)
    (mesh : gfx_mesh) (instances : VkDescriptorBufferInfo)
    (instance_stride : Nat) : Except Unit draw_list :=
  dl.drawMesh descriptors mesh (List.range mesh.materials.length) instances instance_stride

/-- Overload `draw(descriptors, mesh, mtls)` (lines 1144-1147): no instance
buffer — delegates with a zero-initialised buffer info and stride 0. -/
def draw_list.drawMeshNoInstances (dl : draw_list) (descriptors : scene_descriptor_set)
    (mesh : gfx_mesh) (mtls : List Nat) : Except Unit draw_list :=
  dl.drawMesh descriptors mesh mtls ⟨0, 0, 0⟩ 0

/-- Overload `draw(descriptors, mesh)` (lines 1149-1152). -/
def draw_list.drawMeshSimple (dl : draw_list) (descriptors : scene_descriptor_set)
    (mesh : gfx_mesh) : Except Unit draw_list :=
  dl.drawMeshAll descriptors mesh ⟨0, 0, 0⟩ 0

/-! ## Command recording (`draw_list::write_commands`, lines 1154-1180) -/

/-- One recorded command-buffer command. -/
inductive Cmd where
  | bindDescriptorSets (layout firstSet : Nat) (sets : List Nat)
  | bindPipeline (pipeline : Nat)
  | bindVertexBuffers (count : Nat) (buffers offsets : Slots4)
  | bindIndexBuffer (buffer offset : Nat)
  | drawIndexed (index_count instance_count first_index vertex_offset first_instance : Nat)
deriving DecidableEq, Repr

/-- The validation loop of `write_commands` (lines 1161-1166): each
supplied shared set's layout must equal the contract layout at the same
position; the raw set handles are collected.  Both failure paths throw
`std::runtime_error("contract violation")`. -/
def collectSharedSets : List scene_descriptor_set → List Nat → Except String (List Nat)
  | [], [] => .ok []
  | d :: ds, l :: ls =>
    if d.layout ≠ l then .error "contract violation"
    else (collectSharedSets ds ls).map (fun sets => d.set :: sets)
  | _, _ => .error "contract violation"

/-- The five commands recorded for one `draw_item` (lines 1172-1179). -/
def itemCommands (shared_count render_pass_index : Nat) (item : draw_item) : List Cmd :=
  [Cmd.bindPipeline (item.material.pipelines.getD render_pass_index 0),
   Cmd.bindDescriptorSets item.material.pipeline_layout shared_count [item.set],
   Cmd.bindVertexBuffers item.vertex_buffer_count item.vertex_buffers item.vertex_buffer_offsets,
   Cmd.bindIndexBuffer item.index_buffer item.index_buffer_offset,
   Cmd.drawIndexed item.index_count item.instance_count item.first_index 0 0]

/-- Source `draw_list::write_commands` (lines 1154-1180).  The command buffer
is the explicit list `cmd`; commands are appended exactly where the
source records them, and a thrown `contract violation` returns the
commands recorded so far paired with the error message.
`get_render_pass_index` (declared in the repository header, not under
src/) is modelled as the position of the pass in the contract's
render-pass list; it is reached only after validation succeeds. -/
def draw_list.write_commands (dl : draw_list) (render_pass : Nat)
    (shared_descriptors : List scene_descriptor_set) (cmd : List Cmd) :
    List Cmd × Option String :=
  if shared_descriptors.length ≠ dl.contract.shared_layouts.length then
    (cmd, some "contract violation")
  else
    match collectSharedSets shared_descriptors dl.contract.shared_layouts with
    | .error e => (cmd, some e)
    | .ok sets =>
      let cmd1 := if shared_descriptors.length > 0 then
          cmd ++ [Cmd.bindDescriptorSets dl.contract.example_layout 0 sets]
        else cmd
      let render_pass_index := dl.contract.render_passes.indexOf render_pass
      (dl.items.foldl (fun c item =>
          c ++ itemCommands shared_descriptors.length render_pass_index item) cmd1,
        none)

/-! ## Texture mip chain (`texture::texture`, renderer.cpp lines 459-472) -/

/-- Mip level count from renderer.cpp line 465:
`1 + static_cast<uint32_t>(std::ceil(std::log2(std::max({w, h, d}))))`.
For the integer extents involved the double computation is exact, so it
is embedded as the exact ceiling base-2 logarithm `Nat.clog 2`. -/
def mipLevels (width height depth : Nat) : Nat :=
  1 + Nat.clog 2 (max width (max height depth))

/-- The level count as the specification words it:
`1 + floor(log2(max(width, height, depth)))` (`Nat.log 2` is the floor
base-2 logarithm).  Stated from the spec for comparison against
`mipLevels`, which is translated from the source. -/
def mipLevelsFloorSpec (width height depth : Nat) : Nat :=
  1 + Nat.log 2 (max width (max height depth))

/-! ## Shader-stage descriptor merging
(`scene_material::scene_material`, renderer.cpp lines 1029-1067) -/

def VK_DESCRIPTOR_TYPE_COMBINED_IMAGE_SAMPLER : Nat := 1
def VK_DESCRIPTOR_TYPE_UNIFORM_BUFFER : Nat := 6

structure VkDescriptorSetLayoutBinding where
  binding : Nat
  descriptorType : Nat
  descriptorCount : Nat
  stageFlags : Nat
deriving DecidableEq, Repr

/-- Shape of `shader_info::type` (data-types.h lines 165-175); only the
variant structure and array lengths matter for binding derivation. -/
inductive shader_type where
  | sampler
  | numeric
  | struct
  | arr (element : shader_type) (length : Nat)
deriving DecidableEq, Repr

/-- Source `get_descriptor_set_layout_binding` (renderer.cpp lines 1017-1027):
arrays recurse on the element and multiply the count, samplers become
combined-image-sampler bindings, everything else a uniform buffer. -/
def get_descriptor_set_layout_binding (binding : Nat) (t : shader_type)
    (stage_flags : Nat) : VkDescriptorSetLayoutBinding :=
  match t with
  | .arr e len =>
    let b := get_descriptor_set_layout_binding binding e stage_flags
    { b with descriptorCount := b.descriptorCount * len }
  | .sampler => ⟨binding, VK_DESCRIPTOR_TYPE_COMBINED_IMAGE_SAMPLER, 1, stage_flags⟩
  | _ => ⟨binding, VK_DESCRIPTOR_TYPE_UNIFORM_BUFFER, 1, stage_flags⟩

/-- Source `shader_info::descriptor` (data-types.h line 176), restricted to
the fields renderer.cpp consumes. -/
structure shader_descriptor where
  set : Nat
  binding : Nat
  type : shader_type
deriving DecidableEq, Repr

/-- One shader stage with its reflection info: the stage flag bit and
its declared descriptors. -/
structure shader_stage where
  stage : Nat
  descriptors : List shader_descriptor
deriving DecidableEq, Repr

/-- The inner merge loop of `scene_material::scene_material` (lines
1045-1055): find an existing entry with the same binding; a differing
descriptor type or count throws; otherwise the stage flags are ORed in.
When no entry matches, the new binding is appended at the end. -/
def mergeBinding (acc : List VkDescriptorSetLayoutBinding)
    (db : VkDescriptorSetLayoutBinding) :
    Except String (List VkDescriptorSetLayoutBinding) :=
  match acc with
  | [] => .ok [db]
  | b :: rest =>
    if b.binding = db.binding then
      if b.descriptorType ≠ db.descriptorType then .error "descriptor type mismatch"
      else if b.descriptorCount ≠ db.descriptorCount then .error "descriptor count mismatch"
      else .ok ({ b with stageFlags := b.stageFlags ||| db.stageFlags } :: rest)
    else (mergeBinding rest db).map (fun acc2 => b :: acc2)

/-- The per-object descriptor declarations contributed by the stages in
stage order, filtered to the per-object set index `k` (lines
1036-1043). -/
def declaredBindings (k : Nat) (stages : List shader_stage) :
    List VkDescriptorSetLayoutBinding :=
  (stages.map (fun s =>
    (s.descriptors.filter (fun d => d.set == k)).map
      (fun d => get_descriptor_set_layout_binding d.binding d.type s.stage))).flatten

/-- Folding the merge loop over all declarations: the
`per_object_bindings` accumulated by `scene_material::scene_material`,
or the thrown mismatch error. -/
def mergeBindings (ds : List VkDescriptorSetLayoutBinding) :
    Except String (List VkDescriptorSetLayoutBinding) :=
  ds.foldlM mergeBinding []

/-- The merged per-object binding list computed during
`scene_material::scene_material` for a contract with `k` shared
layouts. -/
def scene_material_per_object_bindings (k : Nat) (stages : List shader_stage) :
    Except String (List VkDescriptorSetLayoutBinding) :=
  mergeBindings (declaredBindings k stages)

/-- The entries of `l` declared at binding slot `key`. -/
def filterKey (key : Nat) (l : List VkDescriptorSetLayoutBinding) :
    List VkDescriptorSetLayoutBinding :=
  l.filter (fun b => b.binding == key)

/-- Union (bitwise OR) of the stage flags of all declarations at `key`. -/
def unionFlags (key : Nat) (ds : List VkDescriptorSetLayoutBinding) : Nat :=
  (filterKey key ds).foldr (fun d acc => d.stageFlags ||| acc) 0

/-- All declarations sharing a binding slot agree on descriptor type
and count. -/
def bindingsAgree (ds : List VkDescriptorSetLayoutBinding) : Prop :=
  ∀ d1 ∈ ds, ∀ d2 ∈ ds, d1.binding = d2.binding →
    d1.descriptorType = d2.descriptorType ∧ d1.descriptorCount = d2.descriptorCount

instance (ds : List VkDescriptorSetLayoutBinding) : Decidable (bindingsAgree ds) := by
  unfold bindingsAgree; infer_instance

/-- Invariant of the merge fold: `acc` is the merged form of the
already-processed declarations `done` — at most one entry per binding
slot, each entry carrying the union of the declaring stages' flags and
the type/count of a declaration at that slot, with the same set of
binding slots as `done`. -/
def MergeInv (done acc : List VkDescriptorSetLayoutBinding) : Prop :=
  (∀ key, (filterKey key acc).length ≤ 1) ∧
  (∀ b ∈ acc, b.stageFlags = unionFlags b.binding done ∧
    ∃ d ∈ done, d.binding = b.binding ∧ b.descriptorType = d.descriptorType ∧
      b.descriptorCount = d.descriptorCount) ∧
  (∀ key, (∃ b ∈ acc, b.binding = key) ↔ ∃ d ∈ done, d.binding = key)

/-! ## VkResult checking (renderer.cpp lines 85-91, 545-564) -/

/-- Status codes of `VkResult`: 0 is `VK_SUCCESS`, failures are negative. -/
abbrev VkResult := Int

def VK_SUCCESS : VkResult := 0
def VK_ERROR_OUT_OF_DEVICE_MEMORY : VkResult := -2

/-- Source `check` (renderer.cpp lines 85-91): a non-success result is thrown
as an error carrying the native status code. -/
def check (result : VkResult) : Except VkResult Unit :=
  if result ≠ VK_SUCCESS then .error result else .ok ()

/-- Pass each result through `check` in order, stopping at the first
failure. -/
def checkAll : List VkResult → Except VkResult Unit
  | [] => .ok ()
  | r :: rest =>
    match check r with
    | .error e => .error e
    | .ok _ => checkAll rest

/-- The `VkResult`-returning device calls made during
`static_buffer::static_buffer` (renderer.cpp lines 545-564), in program
order: `vkCreateBuffer`, `vkAllocateMemory` (inside
`context::allocate`), `vkBindBufferMemory`, then through
`begin_transient`/`end_transient`: `vkAllocateCommandBuffers`,
`vkBeginCommandBuffer`, `vkEndCommandBuffer`, `vkQueueSubmit`,
`vkQueueWaitIdle`. -/
structure static_buffer_call_results where
  createBuffer : VkResult
  allocateMemory : VkResult
  bindBufferMemory : VkResult
  allocateCommandBuffers : VkResult
  beginCommandBuffer : VkResult
  endCommandBuffer : VkResult
  queueSubmit : VkResult
  queueWaitIdle : VkResult
deriving DecidableEq, Repr

/-- Source `static_buffer::static_buffer` viewed as its sequence of device
calls.  The source passes every listed result through `check` EXCEPT
`vkBindBufferMemory` (line 558), whose `VkResult` is discarded, so
`bindBufferMemory` does not appear in the checked sequence. -/
def static_buffer_ctor (res : static_buffer_call_results) : Except VkResult Unit :=
  checkAll [res.createBuffer, res.allocateMemory, res.allocateCommandBuffers,
    res.beginCommandBuffer, res.endCommandBuffer, res.queueSubmit, res.queueWaitIdle]

/-! ### Basic lemmas about the allocator -/

theorem le_roundUpTo (a r : Nat) (ha : 0 < a) : r ≤ roundUpTo a r := by
  unfold roundUpTo
  have h1 := Nat.div_add_mod (r + a - 1) a
  have h2 := Nat.mod_lt (r + a - 1) ha
  rcases Nat.eq_zero_or_pos r with hr | hr
  · simp [hr]
  · rw [Nat.mul_comm] at h1
    generalize hq : (r + a - 1) / a * a = q at *
    generalize hm : (r + a - 1) % a = m at *
    omega

theorem roundUpTo_le (a r : Nat) : roundUpTo a r ≤ r + (a - 1) := by
  unfold roundUpTo
  rcases Nat.eq_zero_or_pos a with ha | ha
  · simp [ha]
  · calc (r + a - 1) / a * a ≤ r + a - 1 := Nat.div_mul_le_self _ _
      _ ≤ r + (a - 1) := by omega

theorem roundUpTo_zero (a : Nat) : roundUpTo a 0 = 0 := by
  unfold roundUpTo
  rcases Nat.eq_zero_or_pos a with ha | ha
  · simp [ha]
  · have : a - 1 < a := by omega
    simp [Nat.div_eq_of_lt this]

theorem runFrom_append (a : Nat) (s : dynamic_buffer) (p q : List BufOp) :
    runFrom a s (p ++ q) = runFrom a (runFrom a s p) q := by
  simp [runFrom, List.foldl_append]

/-- The high-water mark `offset + range` grows by at most the demand of
the operations executed. -/
theorem extent_le_demand (a : Nat) (ops : List BufOp) :
    ∀ s : dynamic_buffer,
      (runFrom a s ops).offset + (runFrom a s ops).range ≤
        s.offset + s.range + totalDemand a ops := by
  induction ops with
  | nil => intro s; simp [runFrom, totalDemand]
  | cons op rest ih =>
    intro s
    have hstep : (stepOp a s op).offset + (stepOp a s op).range ≤
        s.offset + s.range + opDemand a op := by
      cases op with
      | reset => simp [stepOp, dynamic_buffer.reset, opDemand]
      | begin =>
        simp only [stepOp, dynamic_buffer.begin, opDemand]
        have := roundUpTo_le a s.range
        omega
      | write n => simp [stepOp, dynamic_buffer.write, opDemand]; omega
      | endOp => simp [stepOp, opDemand]
    have hrest := ih (stepOp a s op)
    have : runFrom a s (op :: rest) = runFrom a (stepOp a s op) rest := by
      simp [runFrom, List.foldl_cons]
    rw [this]
    have hdem : totalDemand a (op :: rest) = opDemand a op + totalDemand a rest := by
      simp [totalDemand]
    omega

/-- Any single non-`reset` operation leaves `offset` no smaller. -/
theorem offset_mono_step (a : Nat) (s : dynamic_buffer) (op : BufOp) (h : op ≠ .reset) :
    s.offset ≤ (stepOp a s op).offset := by
  cases op with
  | reset => exact absurd rfl h
  | begin => simp [stepOp, dynamic_buffer.begin]
  | write n => simp [stepOp, dynamic_buffer.write]
  | endOp => simp [stepOp]

/-- Without an intervening `reset`, `offset` never decreases. -/
theorem offset_mono_runFrom (a : Nat) (ops : List BufOp) :
    ∀ s : dynamic_buffer, BufOp.reset ∉ ops → s.offset ≤ (runFrom a s ops).offset := by
  induction ops with
  | nil => intro s _; simp [runFrom]
  | cons op rest ih =>
    intro s hns
    have hop : op ≠ BufOp.reset := fun h => hns (h ▸ List.mem_cons_self op rest)
    have hrest : BufOp.reset ∉ rest := fun h => hns (List.mem_cons_of_mem _ h)
    have h1 := offset_mono_step a s op hop
    have h2 := ih (stepOp a s op) hrest
    have heq : runFrom a s (op :: rest) = runFrom a (stepOp a s op) rest := by
      simp [runFrom, List.foldl_cons]
    rw [heq]
    omega

/-- If a `begin` occurs (with no `reset`) then the final `offset` has
advanced past the entire starting region `[offset, offset + range)`. -/
theorem begin_advances (a : Nat) (ha : 0 < a) (ops : List BufOp) :
    ∀ s : dynamic_buffer, BufOp.begin ∈ ops → BufOp.reset ∉ ops →
      s.offset + s.range ≤ (runFrom a s ops).offset := by
  induction ops with
  | nil => intro s h _; simp at h
  | cons op rest ih =>
    intro s hb hns
    have hrest : BufOp.reset ∉ rest := fun h => hns (List.mem_cons_of_mem _ h)
    have : runFrom a s (op :: rest) = runFrom a (stepOp a s op) rest := by
      simp [runFrom, List.foldl_cons]
    rw [this]
    cases op with
    | reset => exact absurd (List.mem_cons_self _ _) hns
    | begin =>
      have h1 : s.offset + s.range ≤ (s.begin a).offset := by
        simp only [dynamic_buffer.begin]
        have := le_roundUpTo a s.range ha
        omega
      have h2 := offset_mono_runFrom a rest (s.begin a) hrest
      simp only [stepOp]
      omega
    | write n =>
      have hb' : BufOp.begin ∈ rest := by
        rcases List.mem_cons.mp hb with h | h
        · exact absurd h (by simp)
        · exact h
      have hih := ih (s.write n) hb' hrest
      have h1 : (s.write n).offset = s.offset := rfl
      have h2 : (s.write n).range = s.range + n := rfl
      simp only [stepOp]
      omega
    | endOp =>
      have hb' : BufOp.begin ∈ rest := by
        rcases List.mem_cons.mp hb with h | h
        · exact absurd h (by simp)
        · exact h
      exact ih s hb' hrest

theorem totalDemand_append (a : Nat) (p q : List BufOp) :
    totalDemand a (p ++ q) = totalDemand a p + totalDemand a q := by
  simp [totalDemand]

/-- C1: for every sequence of `reset/begin/write/end` operations on a
`dynamic_buffer` whose total of written sizes plus alignment padding is
at most the capacity: (1) `offset + range ≤ capacity` at every point,
so every region `(offset, range)` returned by `end()` lies within
`[0, capacity)`; (2) `offset` never decreases except via `reset`;
(3) after any later point separated from an earlier one by a `begin`
with no intervening `reset`, the new `offset` lies at or beyond the end
of the earlier region `[offset, offset + range)`, so regions reserved
by distinct `begin()` calls never overlap. -/
theorem C1_linear_allocator_invariants (a cap : Nat) (ha : 0 < a) (ops : List BufOp)
    (hdem : totalDemand a ops ≤ cap) :
    (∀ p, p <+: ops → (run a p).offset + (run a p).range ≤ cap) ∧
    (∀ p op, (p ++ [op]) <+: ops → op ≠ BufOp.reset →
      (run a p).offset ≤ (run a (p ++ [op])).offset) ∧
    (∀ p mid, (p ++ mid) <+: ops → BufOp.begin ∈ mid → BufOp.reset ∉ mid →
      (run a p).offset + (run a p).range ≤ (run a (p ++ mid)).offset) := by
  refine ⟨?_, ?_, ?_⟩
  · intro p hp
    obtain ⟨t, ht⟩ := hp
    have hd : totalDemand a p ≤ totalDemand a ops := by
      rw [← ht, totalDemand_append]; omega
    have hext := extent_le_demand a p ⟨0, 0⟩
    have hf : (dynamic_buffer.mk 0 0).offset = 0 := rfl
    have hg : (dynamic_buffer.mk 0 0).range = 0 := rfl
    simp only [run]
    omega
  · intro p op _ hop
    have heq : run a (p ++ [op]) = stepOp a (run a p) op := by
      simp [run, runFrom_append, runFrom, List.foldl_cons]
    rw [heq]
    exact offset_mono_step a (run a p) op hop
  · intro p mid _ hb hns
    have heq : run a (p ++ mid) = runFrom a (run a p) mid := by
      simp [run, runFrom_append]
    rw [heq]
    exact begin_advances a ha mid (run a p) hb hns

/-- Witness for C1 at alignment 4, capacity 100 and a concrete
six-operation trace. -/
theorem C1_linear_allocator_invariants_witness :
    0 < 4 ∧
    totalDemand 4 [BufOp.begin, BufOp.write 10, BufOp.endOp,
      BufOp.begin, BufOp.write 5, BufOp.endOp] ≤ 100 ∧
    ((∀ p, p <+: [BufOp.begin, BufOp.write 10, BufOp.endOp,
        BufOp.begin, BufOp.write 5, BufOp.endOp] →
        (run 4 p).offset + (run 4 p).range ≤ 100) ∧
      (∀ p op, (p ++ [op]) <+: [BufOp.begin, BufOp.write 10, BufOp.endOp,
        BufOp.begin, BufOp.write 5, BufOp.endOp] → op ≠ BufOp.reset →
        (run 4 p).offset ≤ (run 4 (p ++ [op])).offset) ∧
      (∀ p mid, (p ++ mid) <+: [BufOp.begin, BufOp.write 10, BufOp.endOp,
        BufOp.begin, BufOp.write 5, BufOp.endOp] → BufOp.begin ∈ mid →
        BufOp.reset ∉ mid →
        (run 4 p).offset + (run 4 p).range ≤ (run 4 (p ++ mid)).offset)) :=
  ⟨by decide, by decide,
    C1_linear_allocator_invariants 4 100 (by decide) _ (by decide)⟩

/-- C8: `transient_resource_pool::reset` sets each of the three linear
allocators' `offset` and `range` to 0, is idempotent on the modelled
pool state, and a first `begin()` after a reset leaves `offset` at 0
because rounding the zero `range` up to the alignment yields zero
advance. -/
theorem C8_pool_reset_idempotent (p : transient_resource_pool) (a : Nat) (_ha : 0 < a) :
    p.reset.uniform_buffer = ⟨0, 0⟩ ∧
    p.reset.vertex_buffer = ⟨0, 0⟩ ∧
    p.reset.index_buffer = ⟨0, 0⟩ ∧
    p.reset.reset = p.reset ∧
    roundUpTo a 0 = 0 ∧
    (p.reset.uniform_buffer.begin a).offset = 0 ∧
    (p.reset.vertex_buffer.begin a).offset = 0 ∧
    (p.reset.index_buffer.begin a).offset = 0 := by
  refine ⟨rfl, rfl, rfl, rfl, roundUpTo_zero a, ?_, ?_, ?_⟩ <;>
    simp [transient_resource_pool.reset, dynamic_buffer.reset,
      dynamic_buffer.begin, roundUpTo_zero]

/-- Witness for C8 at a concrete non-trivial pool state and
alignment 256. -/
theorem C8_pool_reset_idempotent_witness :
    0 < 256 ∧
    ((transient_resource_pool.mk ⟨7, 3⟩ ⟨1, 2⟩ ⟨5, 0⟩ [1, 2] [3]).reset.uniform_buffer = ⟨0, 0⟩ ∧
      (transient_resource_pool.mk ⟨7, 3⟩ ⟨1, 2⟩ ⟨5, 0⟩ [1, 2] [3]).reset.vertex_buffer = ⟨0, 0⟩ ∧
      (transient_resource_pool.mk ⟨7, 3⟩ ⟨1, 2⟩ ⟨5, 0⟩ [1, 2] [3]).reset.index_buffer = ⟨0, 0⟩ ∧
      (transient_resource_pool.mk ⟨7, 3⟩ ⟨1, 2⟩ ⟨5, 0⟩ [1, 2] [3]).reset.reset =
        (transient_resource_pool.mk ⟨7, 3⟩ ⟨1, 2⟩ ⟨5, 0⟩ [1, 2] [3]).reset ∧
      roundUpTo 256 0 = 0 ∧
      ((transient_resource_pool.mk ⟨7, 3⟩ ⟨1, 2⟩ ⟨5, 0⟩ [1, 2] [3]).reset.uniform_buffer.begin 256).offset = 0 ∧
      ((transient_resource_pool.mk ⟨7, 3⟩ ⟨1, 2⟩ ⟨5, 0⟩ [1, 2] [3]).reset.vertex_buffer.begin 256).offset = 0 ∧
      ((transient_resource_pool.mk ⟨7, 3⟩ ⟨1, 2⟩ ⟨5, 0⟩ [1, 2] [3]).reset.index_buffer.begin 256).offset = 0) :=
  ⟨by decide, C8_pool_reset_idempotent _ 256 (by decide)⟩

/-! ### Draw-list theorems -/

theorem getD_map_lt {α β : Type} [Inhabited α] [Inhabited β] (f : α → β)
    (l : List α) (n : Nat) (h : n < l.length) :
    (l.map f).getD n default = f (l.getD n default) := by
  rw [List.getD_eq_getElem _ _ (by simpa using h), List.getD_eq_getElem _ _ h,
    List.getElem_map]

/-- C2: a `draw_list::draw` call (any of the five overloads) whose
descriptor set's material was built against a different contract than
the list fails fast — `fail_fast()` is reached before any `draw_item`
is appended, so no draw list results and the item sequence is
unchanged. -/
theorem C2_draw_foreign_contract_fails_fast
    (dl : draw_list) (descriptors : scene_descriptor_set)
    (vbs : List VkDescriptorBufferInfo) (ib instances : VkDescriptorBufferInfo)
    (index_count instance_count instance_stride : Nat)
    (mesh : gfx_mesh) (mtls : List Nat)
    (h : descriptors.get_material.contract ≠ dl.contract.id) :
    dl.draw descriptors vbs ib index_count instance_count = .error () ∧
    dl.drawMesh descriptors mesh mtls instances instance_stride = .error () ∧
    dl.drawMeshAll descriptors mesh instances instance_stride = .error () ∧
    dl.drawMeshNoInstances descriptors mesh mtls = .error () ∧
    dl.drawMeshSimple descriptors mesh = .error () := by
  refine ⟨?_, ?_, ?_, ?_, ?_⟩ <;>
    simp [draw_list.draw, draw_list.drawMesh, draw_list.drawMeshAll,
      draw_list.drawMeshNoInstances, draw_list.drawMeshSimple, h]

/-- Witness for C2: a material built against contract 2 drawn into a
list built against contract 1. -/
theorem C2_draw_foreign_contract_fails_fast_witness :
    (scene_descriptor_set.mk (some ⟨2, 0, 0, []⟩) 0 0).get_material.contract ≠
      (draw_list.mk ⟨1, [], [], 0⟩ []).contract.id ∧
    ((draw_list.mk ⟨1, [], [], 0⟩ []).draw ⟨some ⟨2, 0, 0, []⟩, 0, 0⟩ [] ⟨0, 0, 0⟩ 6 1 = .error () ∧
      (draw_list.mk ⟨1, [], [], 0⟩ []).drawMesh ⟨some ⟨2, 0, 0, []⟩, 0, 0⟩ ⟨8, 9, [⟨0, 4⟩]⟩ [0] ⟨0, 0, 0⟩ 0 = .error () ∧
      (draw_list.mk ⟨1, [], [], 0⟩ []).drawMeshAll ⟨some ⟨2, 0, 0, []⟩, 0, 0⟩ ⟨8, 9, [⟨0, 4⟩]⟩ ⟨0, 0, 0⟩ 0 = .error () ∧
      (draw_list.mk ⟨1, [], [], 0⟩ []).drawMeshNoInstances ⟨some ⟨2, 0, 0, []⟩, 0, 0⟩ ⟨8, 9, [⟨0, 4⟩]⟩ [0] = .error () ∧
      (draw_list.mk ⟨1, [], [], 0⟩ []).drawMeshSimple ⟨some ⟨2, 0, 0, []⟩, 0, 0⟩ ⟨8, 9, [⟨0, 4⟩]⟩ = .error ()) :=
  ⟨by decide, C2_draw_foreign_contract_fails_fast _ _ _ _ _ 6 1 0 _ _ (by decide)⟩

/-- C10: the buffer-level `draw` overload records
`vertex_buffer_count` as the full number of bindings passed, while the
copy loop stores only the first four buffer handles and offsets; with
at most four bindings every one is stored verbatim (remaining slots
keep their zero initialisation). -/
theorem C10_vertex_buffer_truncation
    (dl : draw_list) (descriptors : scene_descriptor_set)
    (vbs : List VkDescriptorBufferInfo) (ib : VkDescriptorBufferInfo)
    (index_count instance_count : Nat)
    (h : descriptors.get_material.contract = dl.contract.id) :
    ∃ it : draw_item,
      dl.draw descriptors vbs ib index_count instance_count =
        .ok { dl with items := dl.items ++ [it] } ∧
      it.vertex_buffer_count = vbs.length ∧
      (∀ i, i < vbs.length → i < 4 →
        it.vertex_buffers.get i = (vbs.getD i default).buffer ∧
        it.vertex_buffer_offsets.get i = (vbs.getD i default).offset) ∧
      (∀ i, vbs.length ≤ i → i < 4 →
        it.vertex_buffers.get i = 0 ∧ it.vertex_buffer_offsets.get i = 0) := by
  have hdraw : dl.draw descriptors vbs ib index_count instance_count = .ok
      { dl with items := dl.items ++
        [{ material := descriptors.get_material
           set := descriptors.set
           vertex_buffer_count := vbs.length
           vertex_buffers := storeSlots (vbs.map (fun v => v.buffer))
           vertex_buffer_offsets := storeSlots (vbs.map (fun v => v.offset))
           index_buffer := ib.buffer
           index_buffer_offset := ib.offset
           first_index := 0
           index_count := index_count
           instance_count := instance_count }] } := by
    simp [draw_list.draw, h]
  refine ⟨_, hdraw, rfl, ?_, ?_⟩
  · intro i hlen h4
    have hb : (vbs.map (fun v => v.buffer)).getD i 0 = (vbs.getD i default).buffer := by
      have := getD_map_lt (fun v : VkDescriptorBufferInfo => v.buffer) vbs i hlen
      simpa using this
    have ho : (vbs.map (fun v => v.offset)).getD i 0 = (vbs.getD i default).offset := by
      have := getD_map_lt (fun v : VkDescriptorBufferInfo => v.offset) vbs i hlen
      simpa using this
    interval_cases i <;> simp [storeSlots, Slots4.get] <;> simp_all
  · intro i hlen h4
    have hb : (vbs.map (fun v => v.buffer)).getD i 0 = 0 :=
      List.getD_eq_default _ _ (by simpa using hlen)
    have ho : (vbs.map (fun v => v.offset)).getD i 0 = 0 :=
      List.getD_eq_default _ _ (by simpa using hlen)
    interval_cases i <;> simp [storeSlots, Slots4.get] <;> simp_all

/-- Witness for C10 at a six-binding call (count 6 recorded, slots hold
only the first four) on a matching contract. -/
theorem C10_vertex_buffer_truncation_witness :
    (scene_descriptor_set.mk (some ⟨1, 0, 0, []⟩) 0 0).get_material.contract =
      (draw_list.mk ⟨1, [], [], 0⟩ []).contract.id ∧
    ∃ it : draw_item,
      (draw_list.mk ⟨1, [], [], 0⟩ []).draw ⟨some ⟨1, 0, 0, []⟩, 0, 0⟩
          [⟨11, 1, 0⟩, ⟨12, 2, 0⟩, ⟨13, 3, 0⟩, ⟨14, 4, 0⟩, ⟨15, 5, 0⟩, ⟨16, 6, 0⟩]
          ⟨9, 0, 0⟩ 6 1 =
        .ok { draw_list.mk ⟨1, [], [], 0⟩ [] with
              items := (draw_list.mk ⟨1, [], [], 0⟩ []).items ++ [it] } ∧
      it.vertex_buffer_count =
        [⟨11, 1, 0⟩, ⟨12, 2, 0⟩, ⟨13, 3, 0⟩, ⟨14, 4, 0⟩, ⟨15, 5, 0⟩,
          (⟨16, 6, 0⟩ : VkDescriptorBufferInfo)].length ∧
      (∀ i, i < [⟨11, 1, 0⟩, ⟨12, 2, 0⟩, ⟨13, 3, 0⟩, ⟨14, 4, 0⟩, ⟨15, 5, 0⟩,
          (⟨16, 6, 0⟩ : VkDescriptorBufferInfo)].length → i < 4 →
        it.vertex_buffers.get i = ([⟨11, 1, 0⟩, ⟨12, 2, 0⟩, ⟨13, 3, 0⟩, ⟨14, 4, 0⟩,
          ⟨15, 5, 0⟩, (⟨16, 6, 0⟩ : VkDescriptorBufferInfo)].getD i default).buffer ∧
        it.vertex_buffer_offsets.get i = ([⟨11, 1, 0⟩, ⟨12, 2, 0⟩, ⟨13, 3, 0⟩,
          ⟨14, 4, 0⟩, ⟨15, 5, 0⟩, (⟨16, 6, 0⟩ : VkDescriptorBufferInfo)].getD i default).offset) ∧
      (∀ i, [⟨11, 1, 0⟩, ⟨12, 2, 0⟩, ⟨13, 3, 0⟩, ⟨14, 4, 0⟩, ⟨15, 5, 0⟩,
          (⟨16, 6, 0⟩ : VkDescriptorBufferInfo)].length ≤ i → i < 4 →
        it.vertex_buffers.get i = 0 ∧ it.vertex_buffer_offsets.get i = 0) :=
  ⟨by decide, C10_vertex_buffer_truncation _ _ _ _ 6 1 (by decide)⟩

/-- C5: drawing a mesh with an explicit material subset on a matching
contract appends exactly one `draw_item` per listed material index, in
subset order, each with `first_index = 3 * first_triangle` and
`index_count = 3 * num_triangles` of that material, all bound to the
mesh's single vertex and index buffer; earlier items are untouched. -/
theorem C5_mesh_subset_draw
    (dl : draw_list) (descriptors : scene_descriptor_set) (mesh : gfx_mesh)
    (mtls : List Nat) (instances : VkDescriptorBufferInfo) (instance_stride : Nat)
    (hc : descriptors.get_material.contract = dl.contract.id)
    (hb : ∀ m ∈ mtls, m < mesh.materials.length) :
    ∃ dl' : draw_list,
      dl.drawMesh descriptors mesh mtls instances instance_stride = .ok dl' ∧
      dl'.contract = dl.contract ∧
      dl'.items.length = dl.items.length + mtls.length ∧
      (∀ j, j < dl.items.length → dl'.items.getD j default = dl.items.getD j default) ∧
      (∀ k, k < mtls.length →
        ∃ hm : mtls.getD k 0 < mesh.materials.length,
          (dl'.items.getD (dl.items.length + k) default).material = descriptors.get_material ∧
          (dl'.items.getD (dl.items.length + k) default).set = descriptors.set ∧
          (dl'.items.getD (dl.items.length + k) default).vertex_buffers.s0 = mesh.vertex_buffer ∧
          (dl'.items.getD (dl.items.length + k) default).index_buffer = mesh.index_buffer ∧
          (dl'.items.getD (dl.items.length + k) default).first_index =
            3 * (mesh.materials.get ⟨mtls.getD k 0, hm⟩).first_triangle ∧
          (dl'.items.getD (dl.items.length + k) default).index_count =
            3 * (mesh.materials.get ⟨mtls.getD k 0, hm⟩).num_triangles) := by
  have hdraw : dl.drawMesh descriptors mesh mtls instances instance_stride = .ok
      { dl with items := dl.items ++
        mtls.map (mesh_draw_item descriptors.get_material descriptors.set mesh
          instances instance_stride) } := by
    simp [draw_list.drawMesh, hc]
  refine ⟨_, hdraw, rfl, by simp, ?_, ?_⟩
  · intro j hj
    exact List.getD_append _ _ _ _ hj
  · intro k hk
    have hmem : mtls.getD k 0 ∈ mtls := by
      rw [List.getD_eq_getElem _ _ hk]
      exact List.getElem_mem _
    have hm : mtls.getD k 0 < mesh.materials.length := hb _ hmem
    refine ⟨hm, ?_⟩
    have hd0 : mtls.getD k default = mtls.getD k 0 := rfl
    have hidx : (dl.items ++
        mtls.map (mesh_draw_item descriptors.get_material descriptors.set mesh
          instances instance_stride)).getD (dl.items.length + k) default =
        mesh_draw_item descriptors.get_material descriptors.set mesh instances
          instance_stride (mtls.getD k 0) := by
      rw [List.getD_append_right _ _ _ _ (by omega), Nat.add_sub_cancel_left,
        getD_map_lt _ _ _ hk, hd0]
    simp only [hidx]
    have hget : mesh.materials.getD (mtls.getD k 0) default =
        mesh.materials.get ⟨mtls.getD k 0, hm⟩ := by
      rw [List.getD_eq_getElem _ _ hm]
      simp [List.get_eq_getElem]
    refine ⟨rfl, rfl, rfl, rfl, ?_, ?_⟩
    · show (mesh.materials.getD (mtls.getD k 0) default).first_triangle * 3 = _
      rw [hget]
      exact Nat.mul_comm _ _
    · show (mesh.materials.getD (mtls.getD k 0) default).num_triangles * 3 = _
      rw [hget]
      exact Nat.mul_comm _ _

/-- Witness for C5: subset `[1, 2]` of a three-material mesh, material
1 spanning triangles `[10, 40)`, emits exactly two items with
`first_index = 30`, `index_count = 90` for material 1. -/
theorem C5_mesh_subset_draw_witness :
    (scene_descriptor_set.mk (some ⟨1, 0, 0, []⟩) 0 7).get_material.contract =
      (draw_list.mk ⟨1, [], [], 0⟩ []).contract.id ∧
    (∀ m ∈ [1, 2], m < (gfx_mesh.mk 8 9 [⟨0, 10⟩, ⟨10, 30⟩, ⟨40, 5⟩]).materials.length) ∧
    ∃ dl' : draw_list,
      (draw_list.mk ⟨1, [], [], 0⟩ []).drawMesh ⟨some ⟨1, 0, 0, []⟩, 0, 7⟩
          ⟨8, 9, [⟨0, 10⟩, ⟨10, 30⟩, ⟨40, 5⟩]⟩ [1, 2] ⟨0, 0, 0⟩ 0 = .ok dl' ∧
      dl'.contract = (draw_list.mk ⟨1, [], [], 0⟩ []).contract ∧
      dl'.items.length = (draw_list.mk ⟨1, [], [], 0⟩ []).items.length + [1, 2].length ∧
      (∀ j, j < (draw_list.mk ⟨1, [], [], 0⟩ []).items.length →
        dl'.items.getD j default = (draw_list.mk ⟨1, [], [], 0⟩ []).items.getD j default) ∧
      (∀ k, k < [1, 2].length →
        ∃ hm : [1, 2].getD k 0 < (gfx_mesh.mk 8 9 [⟨0, 10⟩, ⟨10, 30⟩, ⟨40, 5⟩]).materials.length,
          (dl'.items.getD ((draw_list.mk ⟨1, [], [], 0⟩ []).items.length + k) default).material =
            (scene_descriptor_set.mk (some ⟨1, 0, 0, []⟩) 0 7).get_material ∧
          (dl'.items.getD ((draw_list.mk ⟨1, [], [], 0⟩ []).items.length + k) default).set =
            (scene_descriptor_set.mk (some ⟨1, 0, 0, []⟩) 0 7).set ∧
          (dl'.items.getD ((draw_list.mk ⟨1, [], [], 0⟩ []).items.length + k) default).vertex_buffers.s0 =
            (gfx_mesh.mk 8 9 [⟨0, 10⟩, ⟨10, 30⟩, ⟨40, 5⟩]).vertex_buffer ∧
          (dl'.items.getD ((draw_list.mk ⟨1, [], [], 0⟩ []).items.length + k) default).index_buffer =
            (gfx_mesh.mk 8 9 [⟨0, 10⟩, ⟨10, 30⟩, ⟨40, 5⟩]).index_buffer ∧
          (dl'.items.getD ((draw_list.mk ⟨1, [], [], 0⟩ []).items.length + k) default).first_index =
            3 * ((gfx_mesh.mk 8 9 [⟨0, 10⟩, ⟨10, 30⟩, ⟨40, 5⟩]).materials.get ⟨[1, 2].getD k 0, hm⟩).first_triangle ∧
          (dl'.items.getD ((draw_list.mk ⟨1, [], [], 0⟩ []).items.length + k) default).index_count =
            3 * ((gfx_mesh.mk 8 9 [⟨0, 10⟩, ⟨10, 30⟩, ⟨40, 5⟩]).materials.get ⟨[1, 2].getD k 0, hm⟩).num_triangles) :=
  ⟨by decide, by decide, C5_mesh_subset_draw _ _ _ _ _ 0 (by decide) (by decide)⟩

/-- C6: on a matching contract, a mesh draw with a non-zero instance
stride binds the instance buffer as the second vertex stream
(`vertex_buffer_count = 2`, slot 1 holds the instance buffer and its
offset) and sets `instance_count = instances.range / instance_stride`
on every emitted item; the overloads without an instance buffer bind
only the mesh's vertex buffer (`vertex_buffer_count = 1`) and set
`instance_count = 1`. -/
theorem C6_instance_buffer_binding
    (dl : draw_list) (descriptors : scene_descriptor_set) (mesh : gfx_mesh)
    (mtls : List Nat) (instances : VkDescriptorBufferInfo) (instance_stride : Nat)
    (hc : descriptors.get_material.contract = dl.contract.id)
    (hs : 0 < instance_stride) :
    (∃ g : Nat → draw_item,
      dl.drawMesh descriptors mesh mtls instances instance_stride =
        .ok { dl with items := dl.items ++ mtls.map g } ∧
      ∀ mtl, (g mtl).vertex_buffer_count = 2 ∧
        (g mtl).vertex_buffers.s0 = mesh.vertex_buffer ∧
        (g mtl).vertex_buffers.s1 = instances.buffer ∧
        (g mtl).vertex_buffer_offsets.s1 = instances.offset ∧
        (g mtl).instance_count = instances.range / instance_stride) ∧
    (∃ g : Nat → draw_item,
      dl.drawMeshNoInstances descriptors mesh mtls =
        .ok { dl with items := dl.items ++ mtls.map g } ∧
      ∀ mtl, (g mtl).vertex_buffer_count = 1 ∧
        (g mtl).vertex_buffers.s0 = mesh.vertex_buffer ∧
        (g mtl).instance_count = 1) := by
  constructor
  · refine ⟨mesh_draw_item descriptors.get_material descriptors.set mesh instances
      instance_stride, by simp [draw_list.drawMesh, hc], ?_⟩
    intro mtl
    have hns : instance_stride ≠ 0 := by omega
    simp [mesh_draw_item, hns]
  · refine ⟨mesh_draw_item descriptors.get_material descriptors.set mesh ⟨0, 0, 0⟩ 0,
      by simp [draw_list.drawMeshNoInstances, draw_list.drawMesh, hc], ?_⟩
    intro mtl
    simp [mesh_draw_item]

/-- Witness for C6: an instance buffer of range 96 with stride 32
yields `instance_count = 3`; checked through the conclusion applied at
material index 0. -/
theorem C6_instance_buffer_binding_witness :
    (scene_descriptor_set.mk (some ⟨1, 0, 0, []⟩) 0 7).get_material.contract =
      (draw_list.mk ⟨1, [], [], 0⟩ []).contract.id ∧ 0 < 32 ∧
    ((∃ g : Nat → draw_item,
      (draw_list.mk ⟨1, [], [], 0⟩ []).drawMesh ⟨some ⟨1, 0, 0, []⟩, 0, 7⟩
          ⟨8, 9, [⟨0, 10⟩]⟩ [0] ⟨21, 64, 96⟩ 32 =
        .ok { draw_list.mk ⟨1, [], [], 0⟩ [] with
              items := (draw_list.mk ⟨1, [], [], 0⟩ []).items ++ [0].map g } ∧
      ∀ mtl, (g mtl).vertex_buffer_count = 2 ∧
        (g mtl).vertex_buffers.s0 = (gfx_mesh.mk 8 9 [⟨0, 10⟩]).vertex_buffer ∧
        (g mtl).vertex_buffers.s1 = (VkDescriptorBufferInfo.mk 21 64 96).buffer ∧
        (g mtl).vertex_buffer_offsets.s1 = (VkDescriptorBufferInfo.mk 21 64 96).offset ∧
        (g mtl).instance_count = (VkDescriptorBufferInfo.mk 21 64 96).range / 32) ∧
    (∃ g : Nat → draw_item,
      (draw_list.mk ⟨1, [], [], 0⟩ []).drawMeshNoInstances ⟨some ⟨1, 0, 0, []⟩, 0, 7⟩
          ⟨8, 9, [⟨0, 10⟩]⟩ [0] =
        .ok { draw_list.mk ⟨1, [], [], 0⟩ [] with
              items := (draw_list.mk ⟨1, [], [], 0⟩ []).items ++ [0].map g } ∧
      ∀ mtl, (g mtl).vertex_buffer_count = 1 ∧
        (g mtl).vertex_buffers.s0 = (gfx_mesh.mk 8 9 [⟨0, 10⟩]).vertex_buffer ∧
        (g mtl).instance_count = 1)) :=
  ⟨by decide, by decide,
    C6_instance_buffer_binding _ _ _ _ _ 32 (by decide) (by decide)⟩

/-! ### write_commands validation (C3) -/

theorem collectSharedSets_error (ds : List scene_descriptor_set) : ∀ ls : List Nat,
    ds.length = ls.length →
    (∃ i : Fin ds.length, ∃ h2 : i.val < ls.length,
      (ds.get i).layout ≠ ls.get ⟨i.val, h2⟩) →
    collectSharedSets ds ls = .error "contract violation" := by
  induction ds with
  | nil =>
    intro ls _ h
    obtain ⟨i, _, _⟩ := h
    exact absurd i.isLt (by simp)
  | cons d rest ih =>
    intro ls hlen hmm
    cases ls with
    | nil => simp at hlen
    | cons l ls2 =>
      by_cases hd : d.layout = l
      · obtain ⟨i, hi2, hne⟩ := hmm
        rcases i with ⟨iv, hiv⟩
        cases iv with
        | zero => exact absurd hd (by simpa [List.get] using hne)
        | succ j =>
          have hj : j < rest.length := by simpa using hiv
          have hj2 : j < ls2.length := by simpa using hi2
          have herr : collectSharedSets rest ls2 = .error "contract violation" := by
            refine ih ls2 (by simpa using hlen) ⟨⟨j, hj⟩, hj2, ?_⟩
            simpa [List.get] using hne
          simp [collectSharedSets, hd, herr, Except.map]
      · simp [collectSharedSets, hd]

/-- C3: `write_commands` with a shared-descriptor-set array whose
length differs from the contract's shared-layout list, or with some
set's layout differing from the contract layout at the same position,
throws `contract violation` and records zero commands into the command
buffer. -/
theorem C3_write_commands_validation
    (dl : draw_list) (render_pass : Nat) (shared : List scene_descriptor_set)
    (h : shared.length ≠ dl.contract.shared_layouts.length ∨
      ∃ i : Fin shared.length, ∃ hc : i.val < dl.contract.shared_layouts.length,
        (shared.get i).layout ≠ dl.contract.shared_layouts.get ⟨i.val, hc⟩) :
    dl.write_commands render_pass shared [] = ([], some "contract violation") := by
  by_cases hlen : shared.length = dl.contract.shared_layouts.length
  · rcases h with h | h
    · exact absurd hlen h
    · have herr := collectSharedSets_error shared dl.contract.shared_layouts hlen h
      simp [draw_list.write_commands, hlen, herr]
  · simp [draw_list.write_commands, hlen]

/-- Witness for C3: two supplied sets, the second with layout 12 where
the contract demands 11. -/
theorem C3_write_commands_validation_witness :
    ([(⟨none, 10, 100⟩ : scene_descriptor_set), ⟨none, 12, 101⟩].length ≠
        (draw_list.mk ⟨1, [10, 11], [5], 99⟩ []).contract.shared_layouts.length ∨
      ∃ i : Fin [(⟨none, 10, 100⟩ : scene_descriptor_set), ⟨none, 12, 101⟩].length,
        ∃ hc : i.val < (draw_list.mk ⟨1, [10, 11], [5], 99⟩ []).contract.shared_layouts.length,
          ([(⟨none, 10, 100⟩ : scene_descriptor_set), ⟨none, 12, 101⟩].get i).layout ≠
            (draw_list.mk ⟨1, [10, 11], [5], 99⟩ []).contract.shared_layouts.get ⟨i.val, hc⟩) ∧
    (draw_list.mk ⟨1, [10, 11], [5], 99⟩ []).write_commands 5
        [⟨none, 10, 100⟩, ⟨none, 12, 101⟩] [] = ([], some "contract violation") :=
  ⟨by decide, C3_write_commands_validation _ 5 _ (by decide)⟩

/-! ### Mip chain length (C4) -/

theorem clog2_300 : Nat.clog 2 300 = 9 := by
  have h1 : Nat.clog 2 300 ≤ 9 := by
    rw [← Nat.le_pow_iff_clog_le (by norm_num)]
    norm_num
  have h2 : 8 < Nat.clog 2 300 := by
    rw [← Nat.pow_lt_iff_lt_clog (by norm_num)]
    norm_num
  omega

theorem log2_300 : Nat.log 2 300 = 8 := by
  have h1 : 8 ≤ Nat.log 2 300 := by
    rw [← Nat.pow_le_iff_le_log (by norm_num) (by norm_num)]
    norm_num
  have h2 : Nat.log 2 300 < 9 := by
    rw [← Nat.lt_pow_iff_log_lt (by norm_num) (by norm_num)]
    norm_num
  omega

/-- Counterexample to C4: the source computes the level count with a
ceiling logarithm (renderer.cpp line 465), so a 300×200 texture gets
10 levels, not the 9 levels demanded by the claim's floor formula. -/
theorem C4_mip_levels_counterexample :
    mipLevels 300 200 1 = 10 ∧ mipLevelsFloorSpec 300 200 1 = 9 ∧
    mipLevels 300 200 1 ≠ mipLevelsFloorSpec 300 200 1 := by
  have hmax : max 300 (max 200 1) = 300 := by decide
  refine ⟨?_, ?_, ?_⟩ <;> simp [mipLevels, mipLevelsFloorSpec, hmax, clog2_300, log2_300]

/-- C4 amended: the level count is `1 + ceil(log2(max(W, H, D)))`; this
agrees with the claim's floor formula on power-of-two extents (so
256×256 still gets 9 levels), while 300×200 gets 10 levels. -/
theorem C4_mip_levels_amended :
    (∀ w h d : Nat, mipLevels w h d = 1 + Nat.clog 2 (max w (max h d))) ∧
    (∀ k : Nat, mipLevels (2 ^ k) (2 ^ k) 1 = 1 + k) ∧
    (∀ k : Nat, mipLevelsFloorSpec (2 ^ k) (2 ^ k) 1 = 1 + k) ∧
    mipLevels 256 256 1 = 9 ∧
    mipLevels 300 200 1 = 10 := by
  have hpow : ∀ k : Nat, max (2 ^ k) (max (2 ^ k) 1) = 2 ^ k := by
    intro k
    have h1 : 1 ≤ 2 ^ k := Nat.one_le_two_pow
    omega
  refine ⟨fun w h d => rfl, ?_, ?_, ?_, ?_⟩
  · intro k
    rw [mipLevels, hpow, Nat.clog_pow _ _ (by norm_num)]
  · intro k
    rw [mipLevelsFloorSpec, hpow, Nat.log_pow (by norm_num)]
  · have h256 : (256 : Nat) = 2 ^ 8 := by norm_num
    have hmax : max 256 (max 256 1) = 256 := by decide
    rw [mipLevels, hmax, h256, Nat.clog_pow _ _ (by norm_num)]
  · have hmax : max 300 (max 200 1) = 300 := by decide
    rw [mipLevels, hmax, clog2_300]

/-! ### Device-call status checking (C9) -/

theorem checkAll_ok_iff (rs : List VkResult) :
    checkAll rs = .ok () ↔ ∀ r ∈ rs, r = VK_SUCCESS := by
  induction rs with
  | nil => simp [checkAll]
  | cons r rest ih =>
    by_cases hr : r = VK_SUCCESS
    · simp [checkAll, check, hr, ih]
    · simp [checkAll, check, hr]

theorem checkAll_cons_error (r : VkResult) (rest : List VkResult)
    (hr : r ≠ VK_SUCCESS) : checkAll (r :: rest) = .error r := by
  simp [checkAll, check, hr]

/-- Counterexample to C9: `static_buffer::static_buffer` completes
successfully even though the native `vkBindBufferMemory` call reported
`VK_ERROR_OUT_OF_DEVICE_MEMORY` — its `VkResult` is discarded at
renderer.cpp line 558 rather than translated into a propagating error
(likewise lines 208, 432, 477, 586, 673 and 1193 for
`vkBindBufferMemory`/`vkBindImageMemory`/`vkFreeDescriptorSets`/
`vkDeviceWaitIdle`). -/
theorem C9_device_call_counterexample :
    VK_ERROR_OUT_OF_DEVICE_MEMORY ≠ VK_SUCCESS ∧
    static_buffer_ctor ⟨VK_SUCCESS, VK_SUCCESS, VK_ERROR_OUT_OF_DEVICE_MEMORY,
      VK_SUCCESS, VK_SUCCESS, VK_SUCCESS, VK_SUCCESS, VK_SUCCESS⟩ = .ok () := by
  exact ⟨by decide, rfl⟩

/-- C9 amended: every device call whose result is passed through
`check` has a non-success status translated into a propagating error
carrying that native status code (never ignored, never retried) — the
first failing checked call aborts `static_buffer` construction with its
code — but the results of the `vkBindBufferMemory`-style calls are
discarded, so `static_buffer` construction succeeds exactly when all
its CHECKED calls succeed, regardless of `bindBufferMemory`. -/
theorem C9_device_call_amended (r : VkResult) (hr : r ≠ VK_SUCCESS) :
    check r = .error r ∧
    (∀ res : static_buffer_call_results,
      (static_buffer_ctor res = .ok () ↔
        (res.createBuffer = VK_SUCCESS ∧ res.allocateMemory = VK_SUCCESS ∧
          res.allocateCommandBuffers = VK_SUCCESS ∧ res.beginCommandBuffer = VK_SUCCESS ∧
          res.endCommandBuffer = VK_SUCCESS ∧ res.queueSubmit = VK_SUCCESS ∧
          res.queueWaitIdle = VK_SUCCESS))) ∧
    (∀ res : static_buffer_call_results, res.createBuffer = r →
      static_buffer_ctor res = .error r) := by
  refine ⟨by simp [check, hr], ?_, ?_⟩
  · intro res
    rw [static_buffer_ctor, checkAll_ok_iff]
    simp
  · intro res hres
    rw [static_buffer_ctor, ← hres]
    exact checkAll_cons_error _ _ (hres ▸ hr)

/-- Witness for C9 amended at the concrete failing status code −2. -/
theorem C9_device_call_amended_witness :
    VK_ERROR_OUT_OF_DEVICE_MEMORY ≠ VK_SUCCESS ∧
    (check VK_ERROR_OUT_OF_DEVICE_MEMORY = .error VK_ERROR_OUT_OF_DEVICE_MEMORY ∧
      (∀ res : static_buffer_call_results,
        (static_buffer_ctor res = .ok () ↔
          (res.createBuffer = VK_SUCCESS ∧ res.allocateMemory = VK_SUCCESS ∧
            res.allocateCommandBuffers = VK_SUCCESS ∧ res.beginCommandBuffer = VK_SUCCESS ∧
            res.endCommandBuffer = VK_SUCCESS ∧ res.queueSubmit = VK_SUCCESS ∧
            res.queueWaitIdle = VK_SUCCESS))) ∧
      (∀ res : static_buffer_call_results,
        res.createBuffer = VK_ERROR_OUT_OF_DEVICE_MEMORY →
          static_buffer_ctor res = .error VK_ERROR_OUT_OF_DEVICE_MEMORY)) :=
  ⟨by decide, C9_device_call_amended _ (by decide)⟩

/-! ### Descriptor-binding merge (C7) -/

theorem mem_filterKey {b : VkDescriptorSetLayoutBinding} {key : Nat}
    {l : List VkDescriptorSetLayoutBinding} :
    b ∈ filterKey key l ↔ b ∈ l ∧ b.binding = key := by
  simp [filterKey, List.mem_filter]

theorem filterKey_cons (key : Nat) (c : VkDescriptorSetLayoutBinding)
    (l : List VkDescriptorSetLayoutBinding) :
    filterKey key (c :: l) =
      if c.binding = key then c :: filterKey key l else filterKey key l := by
  by_cases hc : c.binding = key <;> simp [filterKey, List.filter_cons, hc]

theorem filterKey_append (key : Nat) (l1 l2 : List VkDescriptorSetLayoutBinding) :
    filterKey key (l1 ++ l2) = filterKey key l1 ++ filterKey key l2 := by
  simp [filterKey, List.filter_append]

theorem filterKey_eq_nil {key : Nat} {l : List VkDescriptorSetLayoutBinding} :
    filterKey key l = [] ↔ ∀ b ∈ l, b.binding ≠ key := by
  simp [filterKey, List.filter_eq_nil_iff]

theorem foldr_lor_init (l : List VkDescriptorSetLayoutBinding) (i : Nat) :
    l.foldr (fun d acc => d.stageFlags ||| acc) i =
      (l.foldr (fun d acc => d.stageFlags ||| acc) 0) ||| i := by
  induction l with
  | nil => simp
  | cons d rest ih => simp [ih, Nat.lor_assoc]

theorem unionFlags_snoc_eq (key : Nat) (l : List VkDescriptorSetLayoutBinding)
    (x : VkDescriptorSetLayoutBinding) (hx : x.binding = key) :
    unionFlags key (l ++ [x]) = unionFlags key l ||| x.stageFlags := by
  unfold unionFlags
  rw [filterKey_append]
  have hfx : filterKey key [x] = [x] := by simp [filterKey, hx]
  have h1 : ([x] : List VkDescriptorSetLayoutBinding).foldr
      (fun d acc => d.stageFlags ||| acc) 0 = x.stageFlags := by simp
  rw [hfx, List.foldr_append, h1, foldr_lor_init]

theorem unionFlags_snoc_ne (key : Nat) (l : List VkDescriptorSetLayoutBinding)
    (x : VkDescriptorSetLayoutBinding) (hx : x.binding ≠ key) :
    unionFlags key (l ++ [x]) = unionFlags key l := by
  unfold unionFlags
  rw [filterKey_append]
  have hfx : filterKey key [x] = [] := by simp [filterKey, hx]
  rw [hfx, List.append_nil]

theorem mergeBinding_spec (db : VkDescriptorSetLayoutBinding) :
    ∀ acc : List VkDescriptorSetLayoutBinding,
    (∀ b ∈ acc, b.binding = db.binding →
      b.descriptorType = db.descriptorType ∧ b.descriptorCount = db.descriptorCount) →
    ∃ acc2, mergeBinding acc db = .ok acc2 ∧
      (∀ key, key ≠ db.binding → filterKey key acc2 = filterKey key acc) ∧
      ((filterKey db.binding acc = [] ∧ acc2 = acc ++ [db]) ∨
        (∃ b rest2, filterKey db.binding acc = b :: rest2 ∧ b ∈ acc ∧
          filterKey db.binding acc2 =
            { b with stageFlags := b.stageFlags ||| db.stageFlags } :: rest2)) := by
  intro acc
  induction acc with
  | nil =>
    intro _
    refine ⟨[db], rfl, ?_, Or.inl ⟨rfl, rfl⟩⟩
    intro key hk
    have hne : ¬ db.binding = key := fun h => hk h.symm
    simp [filterKey, hne]
  | cons c rest ih =>
    intro hcompat
    by_cases hc : c.binding = db.binding
    · have hcc := hcompat c (List.mem_cons_self _ _) hc
      refine ⟨{ c with stageFlags := c.stageFlags ||| db.stageFlags } :: rest, ?_, ?_, ?_⟩
      · simp [mergeBinding, hc, hcc.1, hcc.2]
      · intro key hk
        rw [filterKey_cons, filterKey_cons]
        have hck : ¬ c.binding = key := fun h => hk (h.symm.trans hc)
        simp [hck]
      · right
        refine ⟨c, filterKey db.binding rest, ?_, List.mem_cons_self _ _, ?_⟩
        · rw [filterKey_cons]
          simp [hc]
        · rw [filterKey_cons]
          simp [hc]
    · have hcompat2 : ∀ b ∈ rest, b.binding = db.binding →
          b.descriptorType = db.descriptorType ∧ b.descriptorCount = db.descriptorCount :=
        fun b hb => hcompat b (List.mem_cons_of_mem _ hb)
      obtain ⟨acc2, hok, hkeyeq, hdisj⟩ := ih hcompat2
      refine ⟨c :: acc2, ?_, ?_, ?_⟩
      · simp [mergeBinding, hc, hok, Except.map]
      · intro key hk
        rw [filterKey_cons, filterKey_cons]
        by_cases hck : c.binding = key <;> simp [hck, hkeyeq key hk]
      · rcases hdisj with ⟨hempty, hacc2⟩ | ⟨b, rest2, hfil, hb, hfil2⟩
        · left
          constructor
          · rw [filterKey_cons]
            simp [hc, hempty]
          · rw [hacc2]
            simp
        · right
          refine ⟨b, rest2, ?_, List.mem_cons_of_mem _ hb, ?_⟩
          · rw [filterKey_cons]
            simp [hc, hfil]
          · rw [filterKey_cons]
            simp [hc, hfil2]

theorem mergeBinding_ok_compat (db : VkDescriptorSetLayoutBinding) :
    ∀ acc acc2, mergeBinding acc db = .ok acc2 →
    ∀ b rest2, filterKey db.binding acc = b :: rest2 →
      b.descriptorType = db.descriptorType ∧ b.descriptorCount = db.descriptorCount := by
  intro acc
  induction acc with
  | nil =>
    intro acc2 _ b rest2 hfil
    simp [filterKey] at hfil
  | cons c rest ih =>
    intro acc2 hok b rest2 hfil
    by_cases hc : c.binding = db.binding
    · by_cases ht : c.descriptorType = db.descriptorType
      · by_cases hcnt : c.descriptorCount = db.descriptorCount
        · have hbc : b = c := by
            rw [filterKey_cons] at hfil
            simp [hc] at hfil
            exact hfil.1.symm
          subst hbc
          exact ⟨ht, hcnt⟩
        · exfalso
          simp [mergeBinding, hc, ht, hcnt] at hok
      · exfalso
        simp [mergeBinding, hc, ht] at hok
    · rw [filterKey_cons] at hfil
      simp [hc] at hfil
      rcases hinner : mergeBinding rest db with e | a2
      · rw [mergeBinding] at hok
        simp [hc, hinner, Except.map] at hok
      · exact ih a2 hinner b rest2 hfil

theorem mergeStep (done acc : List VkDescriptorSetLayoutBinding)
    (db : VkDescriptorSetLayoutBinding)
    (hinv : MergeInv done acc)
    (hcompat : ∀ b ∈ acc, b.binding = db.binding →
      b.descriptorType = db.descriptorType ∧ b.descriptorCount = db.descriptorCount) :
    ∃ acc2, mergeBinding acc db = .ok acc2 ∧ MergeInv (done ++ [db]) acc2 := by
  obtain ⟨huniq, hprops, hkeys⟩ := hinv
  obtain ⟨acc2, hok, hkeyeq, hdisj⟩ := mergeBinding_spec db acc hcompat
  refine ⟨acc2, hok, ?_, ?_, ?_⟩
  · intro key
    by_cases hk : key = db.binding
    · subst hk
      rcases hdisj with ⟨hempty, hacc2⟩ | ⟨b, rest2, hfil, hb, hfil2⟩
      · rw [hacc2, filterKey_append, hempty]
        simp [filterKey]
      · have h1 := huniq db.binding
        rw [hfil] at h1
        have hr2 : rest2 = [] := by
          simp only [List.length_cons] at h1
          exact List.length_eq_zero.mp (by omega)
        rw [hfil2, hr2]
        simp
    · rw [hkeyeq key hk]
      exact huniq key
  · intro b2 hb2
    by_cases hbk : b2.binding = db.binding
    · rcases hdisj with ⟨hempty, hacc2⟩ | ⟨b, rest2, hfil, hb, hfil2⟩
      · rw [hacc2] at hb2
        rcases List.mem_append.mp hb2 with hin | hin
        · exfalso
          have : b2 ∈ filterKey db.binding acc := mem_filterKey.mpr ⟨hin, hbk⟩
          rw [hempty] at this
          simp at this
        · have hb2db : b2 = db := by simpa using hin
          subst hb2db
          have hnodone : ∀ d ∈ done, d.binding ≠ b2.binding := by
            intro d hd hdb
            have : ∃ b ∈ acc, b.binding = b2.binding := (hkeys b2.binding).mpr ⟨d, hd, hdb⟩
            obtain ⟨b3, hb3, hb3k⟩ := this
            have : b3 ∈ filterKey b2.binding acc := mem_filterKey.mpr ⟨hb3, hb3k⟩
            rw [hbk, hempty] at this
            simp at this
          have hflags : unionFlags b2.binding (done ++ [b2]) = b2.stageFlags := by
            rw [unionFlags_snoc_eq _ _ _ rfl]
            have : filterKey b2.binding done = [] := filterKey_eq_nil.mpr hnodone
            simp [unionFlags, this]
          refine ⟨by rw [hbk] at hflags ⊢; exact hflags.symm, ⟨b2, ?_, rfl, rfl, rfl⟩⟩
          simp
      · have h1 := huniq db.binding
        rw [hfil] at h1
        have hr2 : rest2 = [] := by
          simp only [List.length_cons] at h1
          exact List.length_eq_zero.mp (by omega)
        have hb2mem : b2 ∈ filterKey db.binding acc2 := mem_filterKey.mpr ⟨hb2, hbk⟩
        rw [hfil2, hr2] at hb2mem
        have hb2eq : b2 = { b with stageFlags := b.stageFlags ||| db.stageFlags } := by
          simpa using hb2mem
        have hbin : b.binding = db.binding := by
          have : b ∈ filterKey db.binding acc := by rw [hfil]; exact List.mem_cons_self _ _
          exact (mem_filterKey.mp this).2
        have hbp := hprops b hb
        have hbcompat := hcompat b hb hbin
        constructor
        · rw [hb2eq]
          show b.stageFlags ||| db.stageFlags = unionFlags b.binding (done ++ [db])
          rw [hbin, unionFlags_snoc_eq _ _ _ rfl, ← hbin, ← hbp.1]
        · refine ⟨db, by simp, ?_, ?_, ?_⟩
          · rw [hbk]
          · rw [hb2eq]
            exact hbcompat.1
          · rw [hb2eq]
            exact hbcompat.2
    · have hb2f : b2 ∈ filterKey b2.binding acc2 := mem_filterKey.mpr ⟨hb2, rfl⟩
      rw [hkeyeq b2.binding hbk] at hb2f
      have hb2acc : b2 ∈ acc := (mem_filterKey.mp hb2f).1
      have hp := hprops b2 hb2acc
      refine ⟨?_, ?_⟩
      · rw [unionFlags_snoc_ne _ _ _ (fun h => hbk h.symm)]
        exact hp.1
      · obtain ⟨d, hd, hdk, hdt, hdc⟩ := hp.2
        exact ⟨d, List.mem_append_left _ hd, hdk, hdt, hdc⟩
  · intro key
    have hrhs : (∃ d ∈ done ++ [db], d.binding = key) ↔
        (∃ d ∈ done, d.binding = key) ∨ db.binding = key := by
      constructor
      · rintro ⟨d, hd, hdk⟩
        rcases List.mem_append.mp hd with h | h
        · exact Or.inl ⟨d, h, hdk⟩
        · right
          have : d = db := by simpa using h
          rw [← this]
          exact hdk
      · rintro (⟨d, hd, hdk⟩ | h)
        · exact ⟨d, List.mem_append_left _ hd, hdk⟩
        · exact ⟨db, by simp, h⟩
    rw [hrhs]
    by_cases hk : key = db.binding
    · subst hk
      constructor
      · intro _
        exact Or.inr rfl
      · intro _
        rcases hdisj with ⟨hempty, hacc2⟩ | ⟨b, rest2, hfil, hb, hfil2⟩
        · exact ⟨db, by rw [hacc2]; simp, rfl⟩
        · have : { b with stageFlags := b.stageFlags ||| db.stageFlags } ∈
              filterKey db.binding acc2 := by
            rw [hfil2]
            exact List.mem_cons_self _ _
          have hm := mem_filterKey.mp this
          exact ⟨_, hm.1, hm.2⟩
    · constructor
      · rintro ⟨b2, hb2, hb2k⟩
        have : b2 ∈ filterKey key acc2 := mem_filterKey.mpr ⟨hb2, hb2k⟩
        rw [hkeyeq key hk] at this
        have hm := mem_filterKey.mp this
        exact Or.inl ((hkeys key).mp ⟨b2, hm.1, hm.2⟩)
      · rintro (hdone | hdb)
        · obtain ⟨b2, hb2, hb2k⟩ := (hkeys key).mpr hdone
          have : b2 ∈ filterKey key acc := mem_filterKey.mpr ⟨hb2, hb2k⟩
          rw [← hkeyeq key hk] at this
          have hm := mem_filterKey.mp this
          exact ⟨b2, hm.1, hm.2⟩
        · exact absurd hdb.symm hk

theorem foldlM_mergeBinding_cons (acc : List VkDescriptorSetLayoutBinding)
    (db : VkDescriptorSetLayoutBinding) (rest : List VkDescriptorSetLayoutBinding) :
    List.foldlM mergeBinding acc (db :: rest) =
      match mergeBinding acc db with
      | .error e => .error e
      | .ok a2 => List.foldlM mergeBinding a2 rest := by
  rw [List.foldlM_cons]
  rcases mergeBinding acc db with e | a2 <;> rfl

theorem foldMerge_ok (ds : List VkDescriptorSetLayoutBinding) :
    ∀ done acc, MergeInv done acc → bindingsAgree (done ++ ds) →
    ∃ l, List.foldlM mergeBinding acc ds = .ok l ∧ MergeInv (done ++ ds) l := by
  induction ds with
  | nil =>
    intro done acc hinv _
    refine ⟨acc, rfl, ?_⟩
    rw [List.append_nil]
    exact hinv
  | cons db rest ih =>
    intro done acc hinv hagree
    have hcompat : ∀ b ∈ acc, b.binding = db.binding →
        b.descriptorType = db.descriptorType ∧ b.descriptorCount = db.descriptorCount := by
      intro b hb hbk
      obtain ⟨d, hd, hdk, hdt, hdc⟩ := (hinv.2.1 b hb).2
      have hdmem : d ∈ done ++ db :: rest := List.mem_append_left _ hd
      have hdbmem : db ∈ done ++ db :: rest := by simp
      have hpair := hagree d hdmem db hdbmem (by rw [hdk, hbk])
      exact ⟨hdt.trans hpair.1, hdc.trans hpair.2⟩
    obtain ⟨acc2, hok, hinv2⟩ := mergeStep done acc db hinv hcompat
    have hagree2 : bindingsAgree ((done ++ [db]) ++ rest) := by
      rw [List.append_assoc]
      exact hagree
    obtain ⟨l, hfold, hinvl⟩ := ih (done ++ [db]) acc2 hinv2 hagree2
    refine ⟨l, ?_, ?_⟩
    · rw [foldlM_mergeBinding_cons, hok]
      exact hfold
    · rw [List.append_assoc] at hinvl
      exact hinvl

theorem foldMerge_ok_agree (ds : List VkDescriptorSetLayoutBinding) :
    ∀ done acc l, MergeInv done acc → bindingsAgree done →
    List.foldlM mergeBinding acc ds = .ok l → bindingsAgree (done ++ ds) := by
  induction ds with
  | nil =>
    intro done acc l _ hag _
    simpa using hag
  | cons db rest ih =>
    intro done acc l hinv hag hfold
    rcases hok : mergeBinding acc db with e | acc2
    · rw [foldlM_mergeBinding_cons, hok] at hfold
      exact absurd hfold (by simp)
    · have hcompat : ∀ b ∈ acc, b.binding = db.binding →
          b.descriptorType = db.descriptorType ∧ b.descriptorCount = db.descriptorCount := by
        intro b hb hbk
        have hbf : b ∈ filterKey db.binding acc := mem_filterKey.mpr ⟨hb, hbk⟩
        rcases hfil : filterKey db.binding acc with _ | ⟨b0, rest2⟩
        · rw [hfil] at hbf
          simp at hbf
        · have huniq := hinv.1 db.binding
          rw [hfil] at huniq hbf
          have hr2 : rest2 = [] := by
            simp only [List.length_cons] at huniq
            exact List.length_eq_zero.mp (by omega)
          rw [hr2] at hbf
          have hb0 : b = b0 := by simpa using hbf
          subst hb0
          exact mergeBinding_ok_compat db acc acc2 hok b rest2 hfil
      have hdonekey : ∀ d ∈ done, d.binding = db.binding →
          d.descriptorType = db.descriptorType ∧ d.descriptorCount = db.descriptorCount := by
        intro d hd hdk
        obtain ⟨b, hb, hbk⟩ := (hinv.2.2 db.binding).mpr ⟨d, hd, hdk⟩
        have hbc := hcompat b hb hbk
        obtain ⟨d0, hd0, hd0k, hd0t, hd0c⟩ := (hinv.2.1 b hb).2
        have hagd := hag d hd d0 hd0 (hdk.trans (hd0k.trans hbk).symm)
        exact ⟨hagd.1.trans (hd0t.symm.trans hbc.1), hagd.2.trans (hd0c.symm.trans hbc.2)⟩
      obtain ⟨acc2', hok', hinv2⟩ := mergeStep done acc db hinv hcompat
      have hacc2 : acc2' = acc2 := Except.ok.inj (hok'.symm.trans hok)
      rw [hacc2] at hinv2
      have hag2 : bindingsAgree (done ++ [db]) := by
        intro d1 h1 d2 h2 hk
        rcases List.mem_append.mp h1 with h1d | h1db
        · rcases List.mem_append.mp h2 with h2d | h2db
          · exact hag d1 h1d d2 h2d hk
          · have hd2 : d2 = db := by simpa using h2db
            subst hd2
            exact hdonekey d1 h1d hk
        · have hd1 : d1 = db := by simpa using h1db
          subst hd1
          rcases List.mem_append.mp h2 with h2d | h2db
          · have := hdonekey d2 h2d hk.symm
            exact ⟨this.1.symm, this.2.symm⟩
          · have hd2 : d2 = d1 := by simpa using h2db
            rw [hd2]
            exact ⟨rfl, rfl⟩
      have hfold2 : List.foldlM mergeBinding acc2 rest = .ok l := by
        rw [foldlM_mergeBinding_cons, hok] at hfold
        exact hfold
      have := ih (done ++ [db]) acc2 l hinv2 hag2 hfold2
      rw [List.append_assoc] at this
      exact this

theorem MergeInv_nil : MergeInv [] [] := by
  refine ⟨fun key => by simp [filterKey], fun b hb => absurd hb (List.not_mem_nil b), fun key => by simp⟩

/-- C7: merging per-object descriptor declarations across shader stages
in `scene_material::scene_material`: when all declarations at each
binding slot agree on descriptor type and count, construction succeeds
and yields exactly one merged binding per declared slot, carrying the
bitwise union of the declaring stages' visibility flags and the shared
type/count, and no slots beyond the declared ones; when two
declarations at the same slot differ in type or count, construction
fails with an error. -/
theorem C7_material_binding_merge (k : Nat) (stages : List shader_stage) :
    (bindingsAgree (declaredBindings k stages) →
      ∃ l, scene_material_per_object_bindings k stages = .ok l ∧
        (∀ key, (∃ d ∈ declaredBindings k stages, d.binding = key) →
          (filterKey key l).length = 1) ∧
        (∀ b ∈ l, b.stageFlags = unionFlags b.binding (declaredBindings k stages) ∧
          ∃ d ∈ declaredBindings k stages, d.binding = b.binding ∧
            b.descriptorType = d.descriptorType ∧ b.descriptorCount = d.descriptorCount) ∧
        (∀ key, (∃ b ∈ l, b.binding = key) ↔
          ∃ d ∈ declaredBindings k stages, d.binding = key)) ∧
    (¬ bindingsAgree (declaredBindings k stages) →
      ∃ e, scene_material_per_object_bindings k stages = .error e) := by
  constructor
  · intro hagree
    obtain ⟨l, hfold, hinv⟩ := foldMerge_ok (declaredBindings k stages) [] []
      MergeInv_nil (by simpa using hagree)
    rw [List.nil_append] at hinv
    refine ⟨l, hfold, ?_, hinv.2.1, hinv.2.2⟩
    intro key hex
    obtain ⟨b, hb, hbk⟩ := (hinv.2.2 key).mpr hex
    have hmem : b ∈ filterKey key l := mem_filterKey.mpr ⟨hb, hbk⟩
    have h1 : 0 < (filterKey key l).length := List.length_pos_of_mem hmem
    have h2 := hinv.1 key
    omega
  · intro hnagree
    rcases hres : mergeBindings (declaredBindings k stages) with e | l
    · exact ⟨e, hres⟩
    · exfalso
      have hag := foldMerge_ok_agree (declaredBindings k stages) [] [] l MergeInv_nil
        (fun d1 h1 => absurd h1 (List.not_mem_nil _)) hres
      rw [List.nil_append] at hag
      exact hnagree hag

/-- Witness for C7: a vertex stage (flag 1) and a fragment stage
(flag 16) both declaring binding 3 at set 0 as a uniform buffer of
count 1. -/
theorem C7_material_binding_merge_witness :
    bindingsAgree (declaredBindings 0
      [⟨1, [⟨0, 3, shader_type.numeric⟩]⟩, ⟨16, [⟨0, 3, shader_type.numeric⟩]⟩]) ∧
    ∃ l, scene_material_per_object_bindings 0
        [⟨1, [⟨0, 3, shader_type.numeric⟩]⟩, ⟨16, [⟨0, 3, shader_type.numeric⟩]⟩] = .ok l ∧
      (∀ key, (∃ d ∈ declaredBindings 0
          [⟨1, [⟨0, 3, shader_type.numeric⟩]⟩, ⟨16, [⟨0, 3, shader_type.numeric⟩]⟩],
            d.binding = key) →
        (filterKey key l).length = 1) ∧
      (∀ b ∈ l, b.stageFlags = unionFlags b.binding (declaredBindings 0
          [⟨1, [⟨0, 3, shader_type.numeric⟩]⟩, ⟨16, [⟨0, 3, shader_type.numeric⟩]⟩]) ∧
        ∃ d ∈ declaredBindings 0
            [⟨1, [⟨0, 3, shader_type.numeric⟩]⟩, ⟨16, [⟨0, 3, shader_type.numeric⟩]⟩],
          d.binding = b.binding ∧
            b.descriptorType = d.descriptorType ∧ b.descriptorCount = d.descriptorCount) ∧
      (∀ key, (∃ b ∈ l, b.binding = key) ↔
        ∃ d ∈ declaredBindings 0
            [⟨1, [⟨0, 3, shader_type.numeric⟩]⟩, ⟨16, [⟨0, 3, shader_type.numeric⟩]⟩],
          d.binding = key) :=
  ⟨by decide, (C7_material_binding_merge 0
    [⟨1, [⟨0, 3, shader_type.numeric⟩]⟩, ⟨16, [⟨0, 3, shader_type.numeric⟩]⟩]).1 (by decide)⟩

end IncludeEngine
